import Mathlib

/-!
# Verification of the LottieView playback controller

A shallow embedding of the vector-animation playback controller declared in
`src/example/lottieview.h`.  The header is declaration-only: apart from the
inline bodies of `setSpeed`, `getFrameRate` and `getTotalFrame`, the method
bodies live outside the repository snapshot, so the controller, repeat policy
and render coordinator are modelled from the specification (each such
definition says so in its doc comment).  Positions, speeds and frame rates are
modelled as rationals (the C++ `float`/`long` fields), which is faithful for
the clamp/wrap/reflect arithmetic the specification prescribes.
-/

namespace LottieView

/-- Mirrors `enum class RepeatMode { Restart, Reverse }` from
`src/example/lottieview.h`. -/
inductive RepeatMode where
  | Restart
  | Reverse
deriving DecidableEq, Repr

/-- Modelled from the spec: the tri-state `running` field of the
`PlaybackState` (the header only has the boolean `mPalying`; the spec data
model makes it the tri-state {Stopped, Playing, Paused}). -/
inductive Running where
  | Stopped
  | Playing
  | Paused
deriving DecidableEq, Repr

/-- Modelled from the spec: the `PlaybackState` aggregate of section 3,
corresponding to the mutable fields of `LottieView` in the header
(`mPos`, `mSpeed`, `mFrameRate`, `mTotalFrame`, `mLoop`, `mRepeatMode`,
`mRepeatCount`, `mCurCount`, `mReverse`, `mPalying`, `mDirty`, `mStartPos`). -/
structure PlaybackState where
  position : ℚ
  speed : ℚ
  frameRate : ℚ
  totalFrameCount : ℚ
  loopEnabled : Bool
  repeatMode : RepeatMode
  repeatCount : ℕ
  currentCount : ℕ
  reverseDirection : Bool
  running : Running
  dirty : Bool
  startPos : ℚ
deriving DecidableEq, Repr

/-- Modelled from the spec: the normalized-progress increment of `onTick`,
`speed * elapsedTime * frameRate / totalFrameCount`. -/
def delta (s : PlaybackState) (dt : ℚ) : ℚ :=
  s.speed * dt * s.frameRate / s.totalFrameCount

/-- Modelled from the spec: the position before the repeat policy resolves
boundary crossings.  The `reverseDirection` flag (header field `mReverse`)
is honoured only in `Reverse` mode: when it is set the increment is applied
backwards, which is what makes the ping-pong possible. -/
def rawAdvance (s : PlaybackState) (dt : ℚ) : ℚ :=
  if s.repeatMode = RepeatMode.Reverse ∧ s.reverseDirection then
    s.position - delta s dt
  else
    s.position + delta s dt

/-- Result of the pure repeat policy: the resolved position, the (possibly
flipped) direction, whether a boundary was crossed, and which exact boundary
(0 or 1) was crossed — the value position is clamped to when playback
finishes on this crossing. -/
structure AdvanceOut where
  pos : ℚ
  dir : Bool
  crossed : Bool
  boundary : ℚ
deriving DecidableEq, Repr

/-- Modelled from the spec: `RepeatPolicy.advance` (section 4.2).
Restart mode wraps an out-of-range position via `p - floor p`;
Reverse mode reflects it back into `[0,1]` and flips the direction. -/
def advance (mode : RepeatMode) (raw : ℚ) (dir : Bool) : AdvanceOut :=
  match mode with
  | RepeatMode.Restart =>
      if raw > 1 ∨ raw < 0 then
        ⟨raw - ⌊raw⌋, dir, true, if raw > 1 then 1 else 0⟩
      else
        ⟨raw, dir, false, 0⟩
  | RepeatMode.Reverse =>
      if raw > 1 then ⟨2 - raw, !dir, true, 1⟩
      else if raw < 0 then ⟨-raw, !dir, true, 0⟩
      else ⟨raw, dir, false, 0⟩

/-- Modelled from the spec: `onTick(elapsedTime)` (section 4.1).  A no-op
unless `Playing`; otherwise advances the position, resolves the boundary via
the repeat policy, increments `currentCount` on a crossing, and finishes
(transitions to `Stopped`, clamping position to the exact boundary) when
looping is disabled or the repeat count is exhausted. -/
def onTick (dt : ℚ) (s : PlaybackState) : PlaybackState :=
  if s.running = Running.Playing then
    let a := advance s.repeatMode (rawAdvance s dt) s.reverseDirection
    if a.crossed then
      let cnt := s.currentCount + 1
      if s.loopEnabled = false ∨ (0 < s.repeatCount ∧ s.repeatCount ≤ cnt) then
        { s with position := a.boundary, reverseDirection := a.dir,
                 currentCount := cnt, running := Running.Stopped, dirty := true }
      else
        { s with position := a.pos, reverseDirection := a.dir,
                 currentCount := cnt, dirty := true }
    else
      { s with position := a.pos, reverseDirection := a.dir, dirty := true }
  else
    s

/-- Modelled from the spec: `play()` (section 4.1). -/
def play (s : PlaybackState) : PlaybackState :=
  match s.running with
  | Running.Stopped =>
      { s with currentCount := 0, position := s.startPos, running := Running.Playing }
  | Running.Paused => { s with running := Running.Playing }
  | Running.Playing => s

/-- Modelled from the spec: `pause()` (section 4.1). -/
def pause (s : PlaybackState) : PlaybackState :=
  if s.running = Running.Playing then { s with running := Running.Paused } else s

/-- Modelled from the spec: `stop()` (section 4.1); no-op if already
`Stopped`, otherwise resets the position to `startPos` (header field
`mStartPos`). -/
def stop (s : PlaybackState) : PlaybackState :=
  if s.running = Running.Stopped then s
  else { s with running := Running.Stopped, position := s.startPos }

/-- Clamp of a rational into the unit interval, used by `seek`. -/
def clamp01 (p : ℚ) : ℚ := max 0 (min 1 p)

/-- Modelled from the spec: `seek(pos)` (section 4.1) clamps the argument to
`[0,1]`, stores it in `position` (header field `mPos`) and marks the state
dirty; the running state is untouched, so scrubbing works while paused or
stopped. -/
def seek (pos : ℚ) (s : PlaybackState) : PlaybackState :=
  { s with position := clamp01 pos, dirty := true }

/-- From the header (`float getPos()` returns `mPos`). -/
def getPos (s : PlaybackState) : ℚ := s.position

/-- From the header: the inline body `void setSpeed(float speed)
{ mSpeed = speed;}` assigns the argument to `mSpeed` and nothing else. -/
def setSpeed (v : ℚ) (s : PlaybackState) : PlaybackState :=
  { s with speed := v }

/-- Modelled from the spec: `loop(enabled)` sets the `loopEnabled` flag
(header field `mLoop`). -/
def loop (b : Bool) (s : PlaybackState) : PlaybackState :=
  { s with loopEnabled := b }

/-- Outcome handed back by the external `AnimationSource.load`:
either the frame rate and total frame count, or a load error. -/
inductive LoadResult where
  | ok (frameRate : ℚ) (totalFrames : ℚ)
  | loadError
deriving DecidableEq, Repr

/-- Modelled from the spec: `setFilePath(path)` (section 4.1), abstracted
over the collaborator's load result.  Success initializes `frameRate` and
`totalFrameCount` (header fields `mFrameRate`, `mTotalFrame`), resets
`position` to 0 and `running` to `Stopped`; failure leaves the prior state
unchanged.  The returned boolean reports whether a `LoadError` was
signalled. -/
def setFilePath (res : LoadResult) (s : PlaybackState) : PlaybackState × Bool :=
  match res with
  | LoadResult.loadError => (s, true)
  | LoadResult.ok fr tf =>
      ({ s with frameRate := fr, totalFrameCount := tf,
                position := 0, running := Running.Stopped }, false)

/-- Fold a list of elapsed times through `onTick`. -/
def runTicks (dts : List ℚ) (s : PlaybackState) : PlaybackState :=
  dts.foldl (fun st dt => onTick dt st) s

/-- Whether the tick from state `s` with elapsed time `dt` crosses a
boundary (false whenever the controller is not `Playing`). -/
def tickCrossed (dt : ℚ) (s : PlaybackState) : Bool :=
  decide (s.running = Running.Playing) &&
    (advance s.repeatMode (rawAdvance s dt) s.reverseDirection).crossed

/-- Run a list of ticks, also counting the boundary crossings seen. -/
def runCount (dts : List ℚ) (s : PlaybackState) : PlaybackState × ℕ :=
  dts.foldl (fun p dt => (onTick dt p.1, p.2 + if tickCrossed dt p.1 then 1 else 0)) (s, 0)

/-- A convenient concrete state used by the witness theorems: one-frame
animation at unit frame rate and speed, so a tick of `dt` advances the
normalized position by exactly `dt`. -/
def baseState : PlaybackState :=
  { position := 0, speed := 1, frameRate := 1, totalFrameCount := 1,
    loopEnabled := true, repeatMode := RepeatMode.Restart, repeatCount := 0,
    currentCount := 0, reverseDirection := false, running := Running.Playing,
    dirty := false, startPos := 0 }

/-- Concrete `Paused` state with a non-zero `startPos`, used by the C8
witness. -/
def pausedState : PlaybackState :=
  { baseState with running := Running.Paused, startPos := 1/4 }

/-- Concrete mid-run `Playing` state (position 2/5, three cycles counted),
used by the C6 witness. -/
def midState : PlaybackState :=
  { baseState with position := 2/5, currentCount := 3 }

/-- Concrete `Playing` state with looping disabled and `repeatCount = 5`,
used by the C5 witness. -/
def noloopState : PlaybackState :=
  { baseState with loopEnabled := false, repeatCount := 5 }

/-- Concrete `Playing` state in `Reverse` mode with unlimited repeats,
starting at position 0 moving forward, used for the C4 analysis. -/
def revState : PlaybackState :=
  { baseState with repeatMode := RepeatMode.Reverse }

/-- Concrete `Playing` state with `repeatCount = 1`, used by the C1
witness. -/
def oneRepeatState : PlaybackState :=
  { baseState with repeatCount := 1 }

/-- Invariant tying the crossing counter to the controller state during a
tick-only run with looping enabled and `repeatCount = N`: while `Playing`,
`currentCount` equals the number of crossings seen so far, still short of
`N`; once `Stopped`, exactly `N` crossings have occurred, `currentCount`
equals `N`, and the position sits exactly on a boundary. -/
def countInv (N : ℕ) (p : PlaybackState × ℕ) : Prop :=
  p.1.loopEnabled = true ∧ p.1.repeatCount = N ∧
  ((p.1.running = Running.Playing ∧ p.1.currentCount = p.2 ∧ p.2 < N) ∨
   (p.1.running = Running.Stopped ∧ p.2 = N ∧ p.1.currentCount = N ∧
     (p.1.position = 0 ∨ p.1.position = 1)))

/-- Modelled from the spec: the RenderCoordinator's asynchronous state
(section 4.3).  The header holds a single task handle
(`std::future<bool> mRenderTask`); the positions of outstanding render tasks
are modelled as a list so that the "at most one outstanding" discipline is a
proved invariant rather than a modelling assumption.  `pending` records the
latest superseding position to render once the current task completes. -/
structure Coord where
  inflight : List ℚ
  pending : Option ℚ
deriving DecidableEq, Repr

/-- Modelled from the spec: `requestRender(position)` in asynchronous mode
(section 4.3): with no task outstanding the render starts at once; with one
outstanding, the request is dropped when it targets the outstanding task's
position (coalescing) and otherwise supersedes any previously recorded
desired position — a second concurrent render is never started. -/
def requestRender (p : ℚ) (c : Coord) : Coord :=
  match c.inflight with
  | [] => { c with inflight := [p] }
  | q :: _ => if p = q then c else { c with pending := some p }

/-- Modelled from the spec: completion of the outstanding render task
(section 4.3): the task is retired and, when a superseding position was
recorded, exactly one new render starts there.  Returns the new coordinator
state together with the position of the render started now, if any. -/
def completeRender (c : Coord) : Coord × Option ℚ :=
  match c.pending with
  | some p => ({ inflight := p :: c.inflight.tail, pending := none }, some p)
  | none => ({ inflight := c.inflight.tail, pending := none }, none)

/-- Events driving the coordinator: a render request (as issued by `seek` or
`onTick`) or the completion of the outstanding task. -/
inductive CoordEvent where
  | request (p : ℚ)
  | complete
deriving DecidableEq, Repr

/-- One coordinator transition. -/
def coordStep (c : Coord) (e : CoordEvent) : Coord :=
  match e with
  | CoordEvent.request p => requestRender p c
  | CoordEvent.complete => (completeRender c).1

/-- Run the coordinator over a list of events. -/
def runCoord (evs : List CoordEvent) (c : Coord) : Coord :=
  evs.foldl coordStep c

/-- The idle coordinator: no task outstanding, nothing recorded. -/
def coordInit : Coord := { inflight := [], pending := none }

/-- Coordinator with exactly one render in flight at position `q` and no
superseding request recorded. -/
def oneInFlight (q : ℚ) : Coord := { inflight := [q], pending := none }

/-! ## Helper lemmas -/

theorem onTick_not_playing (dt : ℚ) (s : PlaybackState)
    (h : ¬ s.running = Running.Playing) : onTick dt s = s := by
  simp [onTick, h]

theorem runTicks_not_playing (dts : List ℚ) (s : PlaybackState)
    (h : ¬ s.running = Running.Playing) : runTicks dts s = s := by
  induction dts with
  | nil => rfl
  | cons dt rest ih =>
      show runTicks rest (onTick dt s) = s
      rw [onTick_not_playing dt s h]
      exact ih

theorem advance_boundary_cases (mode : RepeatMode) (raw : ℚ) (dir : Bool) :
    (advance mode raw dir).boundary = 0 ∨ (advance mode raw dir).boundary = 1 := by
  cases mode <;> simp only [advance] <;> split_ifs <;> simp

theorem onTick_eq_finish (dt : ℚ) (s : PlaybackState)
    (hrun : s.running = Running.Playing)
    (hcr : (advance s.repeatMode (rawAdvance s dt) s.reverseDirection).crossed = true)
    (hfin : s.loopEnabled = false ∨ (0 < s.repeatCount ∧ s.repeatCount ≤ s.currentCount + 1)) :
    onTick dt s =
      { s with
          position := (advance s.repeatMode (rawAdvance s dt) s.reverseDirection).boundary
          reverseDirection := (advance s.repeatMode (rawAdvance s dt) s.reverseDirection).dir
          currentCount := s.currentCount + 1
          running := Running.Stopped
          dirty := true } := by
  simp [onTick, hrun, hcr, hfin]

theorem onTick_eq_cont (dt : ℚ) (s : PlaybackState)
    (hrun : s.running = Running.Playing)
    (hcr : (advance s.repeatMode (rawAdvance s dt) s.reverseDirection).crossed = true)
    (hfin : ¬ (s.loopEnabled = false ∨ (0 < s.repeatCount ∧ s.repeatCount ≤ s.currentCount + 1))) :
    onTick dt s =
      { s with
          position := (advance s.repeatMode (rawAdvance s dt) s.reverseDirection).pos
          reverseDirection := (advance s.repeatMode (rawAdvance s dt) s.reverseDirection).dir
          currentCount := s.currentCount + 1
          dirty := true } := by
  simp [onTick, hrun, hcr, hfin]

theorem onTick_eq_nocross (dt : ℚ) (s : PlaybackState)
    (hrun : s.running = Running.Playing)
    (hcr : (advance s.repeatMode (rawAdvance s dt) s.reverseDirection).crossed = false) :
    onTick dt s =
      { s with
          position := (advance s.repeatMode (rawAdvance s dt) s.reverseDirection).pos
          reverseDirection := (advance s.repeatMode (rawAdvance s dt) s.reverseDirection).dir
          dirty := true } := by
  simp [onTick, hrun, hcr]

theorem countInv_step (N : ℕ) (dt : ℚ) (s : PlaybackState) (c : ℕ)
    (h : countInv N (s, c)) :
    countInv N (onTick dt s, c + if tickCrossed dt s then 1 else 0) := by
  obtain ⟨hl, hrc, hcase⟩ := h
  replace hl : s.loopEnabled = true := hl
  replace hrc : s.repeatCount = N := hrc
  rcases hcase with ⟨hrun, hcc, hlt⟩ | ⟨hrun, hc, hcc, hpos⟩
  · replace hrun : s.running = Running.Playing := hrun
    replace hcc : s.currentCount = c := hcc
    replace hlt : c < N := hlt
    by_cases hcr : (advance s.repeatMode (rawAdvance s dt) s.reverseDirection).crossed = true
    · have htc : tickCrossed dt s = true := by simp [tickCrossed, hrun, hcr]
      have hadd : (c + if tickCrossed dt s then 1 else 0) = c + 1 := by
        rw [htc]
        norm_num
      rw [hadd]
      by_cases hN : c + 1 = N
      · have hfin : s.loopEnabled = false ∨
            (0 < s.repeatCount ∧ s.repeatCount ≤ s.currentCount + 1) :=
          Or.inr ⟨by omega, by omega⟩
        rw [onTick_eq_finish dt s hrun hcr hfin]
        exact ⟨hl, hrc, Or.inr ⟨rfl, hN,
          (by rw [hcc, hN] : s.currentCount + 1 = N),
          advance_boundary_cases s.repeatMode (rawAdvance s dt) s.reverseDirection⟩⟩
      · have hfin : ¬ (s.loopEnabled = false ∨
            (0 < s.repeatCount ∧ s.repeatCount ≤ s.currentCount + 1)) := by
          rintro (hcb | ⟨_, hle⟩)
          · rw [hl] at hcb
            exact Bool.noConfusion hcb
          · omega
        rw [onTick_eq_cont dt s hrun hcr hfin]
        exact ⟨hl, hrc, Or.inl ⟨hrun,
          (by rw [hcc] : s.currentCount + 1 = c + 1), by omega⟩⟩
    · have htc : tickCrossed dt s = false := by simp [tickCrossed, hcr]
      have hcr2 : (advance s.repeatMode (rawAdvance s dt) s.reverseDirection).crossed = false :=
        Bool.not_eq_true _ ▸ hcr
      have hadd : (c + if tickCrossed dt s then 1 else 0) = c := by
        rw [htc]
        norm_num
      rw [hadd, onTick_eq_nocross dt s hrun hcr2]
      exact ⟨hl, hrc, Or.inl ⟨hrun, hcc, hlt⟩⟩
  · replace hrun : s.running = Running.Stopped := hrun
    replace hc : c = N := hc
    replace hcc : s.currentCount = N := hcc
    replace hpos : s.position = 0 ∨ s.position = 1 := hpos
    have hnp : ¬ s.running = Running.Playing := by simp [hrun]
    have htc : tickCrossed dt s = false := by simp [tickCrossed, hrun]
    have hadd : (c + if tickCrossed dt s then 1 else 0) = c := by
      rw [htc]
      norm_num
    rw [hadd, onTick_not_playing dt s hnp]
    exact ⟨hl, hrc, Or.inr ⟨hrun, hc, hcc, hpos⟩⟩

theorem countInv_run (N : ℕ) (dts : List ℚ) (p : PlaybackState × ℕ)
    (h : countInv N p) :
    countInv N (dts.foldl
      (fun q dt => (onTick dt q.1, q.2 + if tickCrossed dt q.1 then 1 else 0)) p) := by
  induction dts generalizing p with
  | nil => exact h
  | cons dt rest ih =>
      simp only [List.foldl_cons]
      exact ih _ (countInv_step N dt p.1 p.2 h)

/-! ## Claim theorems -/

/-- C7: for every input `pos`, including values outside `[0,1]`, `seek pos`
stores the clamp of `pos` into `[0,1]` and a following `getPos` returns that
clamped value (in-range inputs pass through, out-of-range inputs land on the
nearer endpoint, the result always lies in `[0,1]`), and this holds in every
running state since `seek` leaves `running` untouched. -/
theorem seek_sets_clamped_position (pos : ℚ) (s : PlaybackState) :
    getPos (seek pos s) = clamp01 pos ∧
    0 ≤ getPos (seek pos s) ∧ getPos (seek pos s) ≤ 1 ∧
    (0 ≤ pos → pos ≤ 1 → getPos (seek pos s) = pos) ∧
    (pos < 0 → getPos (seek pos s) = 0) ∧
    (1 < pos → getPos (seek pos s) = 1) ∧
    (seek pos s).running = s.running := by
  refine ⟨rfl, ?_, ?_, ?_, ?_, ?_, rfl⟩
  · exact le_max_left 0 _
  · exact max_le (by norm_num) (min_le_left 1 pos)
  · intro h0 h1
    simp [getPos, seek, clamp01, min_eq_right h1, max_eq_right h0]
  · intro hneg
    have h1 : min 1 pos = pos := min_eq_right (hneg.le.trans (by norm_num))
    have h2 : max 0 pos = 0 := max_eq_left hneg.le
    simp [getPos, seek, clamp01, h1, h2]
  · intro hbig
    simp [getPos, seek, clamp01, min_eq_left hbig.le]

/-- Witness for C7 at the concrete out-of-range input `pos = 7/2`. -/
theorem seek_sets_clamped_position_witness :
    getPos (seek (7/2) baseState) = clamp01 (7/2) ∧
    0 ≤ getPos (seek (7/2) baseState) ∧ getPos (seek (7/2) baseState) ≤ 1 ∧
    (0 ≤ (7/2 : ℚ) → (7/2 : ℚ) ≤ 1 → getPos (seek (7/2) baseState) = 7/2) ∧
    ((7/2 : ℚ) < 0 → getPos (seek (7/2) baseState) = 0) ∧
    (1 < (7/2 : ℚ) → getPos (seek (7/2) baseState) = 1) ∧
    (seek (7/2) baseState).running = baseState.running :=
  seek_sets_clamped_position (7/2) baseState

/-- C8: calling `stop` from any non-`Stopped` state (in particular from any
state just produced by `play`, which always leaves the controller `Playing`)
transitions to `Stopped` and resets the position to `startPos`, so `getPos`
afterwards returns `startPos`; when the controller is already `Stopped`,
`stop` is a no-op. -/
theorem stop_resets_to_startPos (s : PlaybackState) :
    (¬ s.running = Running.Stopped →
      (stop s).running = Running.Stopped ∧ getPos (stop s) = s.startPos) ∧
    (s.running = Running.Stopped → stop s = s) ∧
    (play s).running = Running.Playing ∧
    (stop (play s)).running = Running.Stopped ∧
    getPos (stop (play s)) = s.startPos := by
  refine ⟨fun h => ⟨by simp [stop, h], by simp [stop, getPos, h]⟩,
    fun h => by simp [stop, h], ?_, ?_, ?_⟩ <;>
    cases hr : s.running <;> simp [play, stop, getPos, hr]

/-- Witness for C8 at a concrete `Paused` state with `startPos = 1/4`. -/
theorem stop_resets_to_startPos_witness :
    (¬ pausedState.running = Running.Stopped →
      (stop pausedState).running = Running.Stopped ∧
      getPos (stop pausedState) = pausedState.startPos) ∧
    (pausedState.running = Running.Stopped → stop pausedState = pausedState) ∧
    (play pausedState).running = Running.Playing ∧
    (stop (play pausedState)).running = Running.Stopped ∧
    getPos (stop (play pausedState)) = pausedState.startPos :=
  stop_resets_to_startPos pausedState

/-- C10: `setSpeed v` (the inline header body `mSpeed = speed;`) stores `v`,
including zero and negative values, in the `speed` field and leaves every
other field of the controller state unchanged. -/
theorem setSpeed_sets_only_speed (v : ℚ) (s : PlaybackState) :
    (setSpeed v s).speed = v ∧
    (setSpeed v s).position = s.position ∧
    (setSpeed v s).frameRate = s.frameRate ∧
    (setSpeed v s).totalFrameCount = s.totalFrameCount ∧
    (setSpeed v s).loopEnabled = s.loopEnabled ∧
    (setSpeed v s).repeatMode = s.repeatMode ∧
    (setSpeed v s).repeatCount = s.repeatCount ∧
    (setSpeed v s).currentCount = s.currentCount ∧
    (setSpeed v s).reverseDirection = s.reverseDirection ∧
    (setSpeed v s).running = s.running ∧
    (setSpeed v s).dirty = s.dirty ∧
    (setSpeed v s).startPos = s.startPos :=
  ⟨rfl, rfl, rfl, rfl, rfl, rfl, rfl, rfl, rfl, rfl, rfl, rfl⟩

/-- C9: `setFilePath` on a failed load returns the prior state unchanged and
signals the load error; on a successful load it installs the frame rate and
total frame count reported by the animation source, resets the position to 0,
sets the controller to `Stopped`, and signals no error. -/
theorem setFilePath_load_behavior (s : PlaybackState) (fr tf : ℚ) :
    setFilePath LoadResult.loadError s = (s, true) ∧
    (setFilePath (LoadResult.ok fr tf) s).1.frameRate = fr ∧
    (setFilePath (LoadResult.ok fr tf) s).1.totalFrameCount = tf ∧
    (setFilePath (LoadResult.ok fr tf) s).1.position = 0 ∧
    (setFilePath (LoadResult.ok fr tf) s).1.running = Running.Stopped ∧
    (setFilePath (LoadResult.ok fr tf) s).2 = false ∧
    (setFilePath (LoadResult.ok fr tf) s).1.speed = s.speed ∧
    (setFilePath (LoadResult.ok fr tf) s).1.startPos = s.startPos :=
  ⟨rfl, rfl, rfl, rfl, rfl, rfl, rfl, rfl⟩

/-- C5: with looping disabled, a tick taken while `Playing` leaves the
controller `Stopped` exactly when it crosses a boundary — the first boundary
crossing finishes playback — and this holds for every value of
`repeatCount` since the state `s` is arbitrary. -/
theorem noloop_stops_at_first_crossing (dt : ℚ) (s : PlaybackState)
    (hrun : s.running = Running.Playing) (hloop : s.loopEnabled = false) :
    ((onTick dt s).running = Running.Stopped ↔
      (advance s.repeatMode (rawAdvance s dt) s.reverseDirection).crossed = true) := by
  by_cases hcr : (advance s.repeatMode (rawAdvance s dt) s.reverseDirection).crossed = true
  · simp [onTick, hrun, hcr, hloop]
  · have hcr2 : (advance s.repeatMode (rawAdvance s dt) s.reverseDirection).crossed = false :=
      Bool.not_eq_true _ ▸ hcr
    simp [onTick, hrun, hcr2]

/-- Witness for C5: a one-frame animation with `repeatCount = 5` and looping
disabled; the tick of length 2 crosses the boundary and playback stops. -/
theorem noloop_stops_at_first_crossing_witness :
    noloopState.running = Running.Playing ∧
    noloopState.loopEnabled = false ∧
    ((onTick 2 noloopState).running = Running.Stopped ↔
      (advance noloopState.repeatMode (rawAdvance noloopState 2)
        noloopState.reverseDirection).crossed = true) :=
  ⟨rfl, rfl, noloop_stops_at_first_crossing 2 noloopState rfl rfl⟩

/-- C6: pausing while `Playing` freezes the state: every subsequent sequence
of ticks leaves the paused state (in particular the position) unchanged, and
a subsequent `play` resumes as the original state with `running := Playing` —
the position is not reset to `startPos` and `currentCount` is not reset to 0,
unlike a `play` from `Stopped`. -/
theorem pause_freezes_position (s : PlaybackState) (dts : List ℚ)
    (hrun : s.running = Running.Playing) :
    runTicks dts (pause s) = pause s ∧
    (pause s).position = s.position ∧
    (pause s).running = Running.Paused ∧
    play (runTicks dts (pause s)) = { s with running := Running.Playing } := by
  have hp : pause s = { s with running := Running.Paused } := by simp [pause, hrun]
  have hnp : ¬ (pause s).running = Running.Playing := by simp [hp]
  have hrt : runTicks dts (pause s) = pause s := runTicks_not_playing dts (pause s) hnp
  refine ⟨hrt, by simp [hp], by simp [hp], ?_⟩
  rw [hrt, hp]
  simp [play]

/-- C1: in a tick-driven run with looping enabled, `repeatCount = N > 0` and
the cycle counter starting at 0, the controller ends `Stopped` exactly when
the run's boundary crossings have reached `N` — the transition happens at the
Nth crossing, the crossing count never exceeds `N` — and at that moment the
position is exactly 0 or exactly 1 (clamped to the boundary, not the wrapped
or reflected remainder). -/
theorem repeatCount_stops_after_Nth_crossing (N : ℕ) (dts : List ℚ)
    (s : PlaybackState) (hN : 0 < N) (hrun : s.running = Running.Playing)
    (hloop : s.loopEnabled = true) (hrc : s.repeatCount = N)
    (hcc : s.currentCount = 0) :
    ((runCount dts s).1.running = Running.Stopped ↔ (runCount dts s).2 = N) ∧
    (runCount dts s).2 ≤ N ∧
    ((runCount dts s).1.running = Running.Stopped →
      ((runCount dts s).1.position = 0 ∨ (runCount dts s).1.position = 1)) := by
  have h0 : countInv N (s, 0) := ⟨hloop, hrc, Or.inl ⟨hrun, hcc, hN⟩⟩
  have h : countInv N (runCount dts s) := countInv_run N dts (s, 0) h0
  obtain ⟨hl, hrc2, hcase⟩ := h
  rcases hcase with ⟨hr, hc, hlt⟩ | ⟨hr, hc, hcc2, hpos⟩
  · refine ⟨⟨fun hst => ?_, fun hcN => ?_⟩, le_of_lt hlt, fun hst => ?_⟩
    · rw [hr] at hst
      exact Running.noConfusion hst
    · omega
    · rw [hr] at hst
      exact Running.noConfusion hst
  · exact ⟨⟨fun _ => hc, fun _ => hr⟩, le_of_eq hc, fun _ => hpos⟩

/-- Witness for C1: a one-frame animation with `repeatCount = 1`; the single
tick of length 2 crosses the boundary once and the run ends `Stopped` at
position 1. -/
theorem repeatCount_stops_after_Nth_crossing_witness :
    0 < 1 ∧ oneRepeatState.running = Running.Playing ∧
    oneRepeatState.loopEnabled = true ∧ oneRepeatState.repeatCount = 1 ∧
    oneRepeatState.currentCount = 0 ∧
    (((runCount [2] oneRepeatState).1.running = Running.Stopped ↔
        (runCount [2] oneRepeatState).2 = 1) ∧
      (runCount [2] oneRepeatState).2 ≤ 1 ∧
      ((runCount [2] oneRepeatState).1.running = Running.Stopped →
        ((runCount [2] oneRepeatState).1.position = 0 ∨
          (runCount [2] oneRepeatState).1.position = 1))) :=
  ⟨Nat.one_pos, rfl, rfl, rfl, rfl,
    repeatCount_stops_after_Nth_crossing 1 [2] oneRepeatState Nat.one_pos rfl rfl rfl rfl⟩

/-- C3: a Restart-mode tick taken while `Playing`.  The raw advanced position
is `position + delta` (so advancement is monotone for a nonnegative
increment); while it stays inside `[0,1]` it is stored as is and
`currentCount` is unchanged; when it leaves `[0,1]` (a wrap) `currentCount`
increments by exactly 1 and — whenever playback continues — the stored
position is the wrapped remainder `raw - floor raw`. -/
theorem restart_tick_wraps (dt : ℚ) (s : PlaybackState)
    (hrun : s.running = Running.Playing) (hm : s.repeatMode = RepeatMode.Restart) :
    rawAdvance s dt = s.position + delta s dt ∧
    (¬ (1 < rawAdvance s dt ∨ rawAdvance s dt < 0) →
      (onTick dt s).position = rawAdvance s dt ∧
      (onTick dt s).currentCount = s.currentCount ∧
      (0 ≤ delta s dt → s.position ≤ (onTick dt s).position)) ∧
    ((1 < rawAdvance s dt ∨ rawAdvance s dt < 0) →
      (onTick dt s).currentCount = s.currentCount + 1) ∧
    ((1 < rawAdvance s dt ∨ rawAdvance s dt < 0) →
      s.loopEnabled = true → (s.repeatCount = 0 ∨ s.currentCount + 1 < s.repeatCount) →
      (onTick dt s).position = rawAdvance s dt - ⌊rawAdvance s dt⌋ ∧
      (onTick dt s).running = Running.Playing) := by
  have hraw : rawAdvance s dt = s.position + delta s dt := by
    simp [rawAdvance, hm]
  refine ⟨hraw, ?_, ?_, ?_⟩
  · intro hin
    have ha : advance s.repeatMode (rawAdvance s dt) s.reverseDirection =
        ⟨rawAdvance s dt, s.reverseDirection, false, 0⟩ := by
      rw [hm, advance]
      exact if_neg hin
    refine ⟨by simp [onTick, hrun, ha], by simp [onTick, hrun, ha], fun hd => ?_⟩
    have : (onTick dt s).position = rawAdvance s dt := by simp [onTick, hrun, ha]
    rw [this, hraw]
    exact le_add_of_nonneg_right hd
  · intro hw
    have ha : advance s.repeatMode (rawAdvance s dt) s.reverseDirection =
        ⟨rawAdvance s dt - ⌊rawAdvance s dt⌋, s.reverseDirection, true,
          if 1 < rawAdvance s dt then 1 else 0⟩ := by
      rw [hm, advance]
      exact if_pos hw
    by_cases hfin : s.loopEnabled = false ∨ (0 < s.repeatCount ∧ s.repeatCount ≤ s.currentCount + 1)
    · simp [onTick, hrun, ha, hfin]
    · simp [onTick, hrun, ha, hfin]
  · intro hw hloop hcont
    have ha : advance s.repeatMode (rawAdvance s dt) s.reverseDirection =
        ⟨rawAdvance s dt - ⌊rawAdvance s dt⌋, s.reverseDirection, true,
          if 1 < rawAdvance s dt then 1 else 0⟩ := by
      rw [hm, advance]
      exact if_pos hw
    have hfin : ¬ (s.loopEnabled = false ∨ (0 < s.repeatCount ∧ s.repeatCount ≤ s.currentCount + 1)) := by
      rcases hcont with h0 | hlt
      · simp [hloop, h0]
      · rintro (hc | ⟨hpos, hle⟩)
        · simp [hloop] at hc
        · omega
    simp [onTick, hrun, ha, hfin]

/-- Witness for C3: from `baseState` a tick of 3/2 wraps (raw position 3/2),
and `currentCount` increments from 0 to 1. -/
theorem restart_tick_wraps_witness :
    baseState.running = Running.Playing ∧
    baseState.repeatMode = RepeatMode.Restart ∧
    (1 < rawAdvance baseState (3/2) ∨ rawAdvance baseState (3/2) < 0) ∧
    (onTick (3/2) baseState).currentCount = baseState.currentCount + 1 :=
  ⟨rfl, rfl, Or.inl (by norm_num [rawAdvance, delta, baseState]),
    (restart_tick_wraps (3/2) baseState rfl rfl).2.2.1
      (Or.inl (by norm_num [rawAdvance, delta, baseState]))⟩

/-- C4 (amended): a Reverse-mode tick taken while `Playing`, with the raw
advanced position overshooting by at most one unit: a raw position inside
`[0,1]` is stored as is with direction and count untouched; a raw position
above 1 (respectively below 0) is a bounce: the direction flag flips,
`currentCount` increments by exactly 1 — hence a full forward+backward cycle
of two bounces increments it by 2, not 1 — and, whenever playback continues,
the stored position is the reflection `2 - raw` (respectively `-raw`); in
all cases the stored position stays inside `[0,1]`. -/
theorem reverse_tick_bounces (dt : ℚ) (s : PlaybackState)
    (hrun : s.running = Running.Playing) (hm : s.repeatMode = RepeatMode.Reverse)
    (hlo : -1 ≤ rawAdvance s dt) (hhi : rawAdvance s dt ≤ 2) :
    (0 ≤ rawAdvance s dt ∧ rawAdvance s dt ≤ 1 →
      (onTick dt s).position = rawAdvance s dt ∧
      (onTick dt s).reverseDirection = s.reverseDirection ∧
      (onTick dt s).currentCount = s.currentCount) ∧
    (1 < rawAdvance s dt →
      (onTick dt s).reverseDirection = (!s.reverseDirection) ∧
      (onTick dt s).currentCount = s.currentCount + 1 ∧
      ((onTick dt s).running = Running.Playing →
        (onTick dt s).position = 2 - rawAdvance s dt)) ∧
    (rawAdvance s dt < 0 →
      (onTick dt s).reverseDirection = (!s.reverseDirection) ∧
      (onTick dt s).currentCount = s.currentCount + 1 ∧
      ((onTick dt s).running = Running.Playing →
        (onTick dt s).position = -rawAdvance s dt)) ∧
    (0 ≤ (onTick dt s).position ∧ (onTick dt s).position ≤ 1) := by
  by_cases h1 : 1 < rawAdvance s dt
  · have ha : advance s.repeatMode (rawAdvance s dt) s.reverseDirection =
        ⟨2 - rawAdvance s dt, !s.reverseDirection, true, 1⟩ := by
      rw [hm, advance]
      exact if_pos h1
    have hnot : ¬ (0 ≤ rawAdvance s dt ∧ rawAdvance s dt ≤ 1) := fun h => absurd h1 (not_lt.mpr h.2)
    have hnot0 : ¬ rawAdvance s dt < 0 := not_lt.mpr (le_trans (by norm_num) h1.le)
    by_cases hfin : s.loopEnabled = false ∨ (0 < s.repeatCount ∧ s.repeatCount ≤ s.currentCount + 1)
    · refine ⟨fun h => absurd h hnot, fun _ => ⟨?_, ?_, ?_⟩, fun h => absurd h hnot0, ?_, ?_⟩ <;>
        simp [onTick, hrun, ha, hfin]
    · refine ⟨fun h => absurd h hnot, fun _ => ⟨?_, ?_, ?_⟩, fun h => absurd h hnot0, ?_, ?_⟩ <;>
        simp [onTick, hrun, ha, hfin] <;> linarith
  · by_cases h0 : rawAdvance s dt < 0
    · have ha : advance s.repeatMode (rawAdvance s dt) s.reverseDirection =
          ⟨-rawAdvance s dt, !s.reverseDirection, true, 0⟩ := by
        rw [hm, advance]
        rw [if_neg h1]
        exact if_pos h0
      have hnot : ¬ (0 ≤ rawAdvance s dt ∧ rawAdvance s dt ≤ 1) := fun h => absurd h0 (not_lt.mpr h.1)
      by_cases hfin : s.loopEnabled = false ∨ (0 < s.repeatCount ∧ s.repeatCount ≤ s.currentCount + 1)
      · refine ⟨fun h => absurd h hnot, fun h => absurd h h1, fun _ => ⟨?_, ?_, ?_⟩, ?_, ?_⟩ <;>
          simp [onTick, hrun, ha, hfin]
      · refine ⟨fun h => absurd h hnot, fun h => absurd h h1, fun _ => ⟨?_, ?_, ?_⟩, ?_, ?_⟩ <;>
          simp [onTick, hrun, ha, hfin] <;> linarith
    · have ha : advance s.repeatMode (rawAdvance s dt) s.reverseDirection =
          ⟨rawAdvance s dt, s.reverseDirection, false, 0⟩ := by
        rw [hm, advance]
        rw [if_neg h1]
        exact if_neg h0
      refine ⟨fun _ => ⟨?_, ?_, ?_⟩, fun h => absurd h h1, fun h => absurd h h0, ?_, ?_⟩ <;>
        simp [onTick, hrun, ha] <;> linarith

/-- Witness for the amended C4: from `revState` a tick of 6/5 bounces at 1
(raw position 6/5) and the stored position 4/5 lies inside `[0,1]`. -/
theorem reverse_tick_bounces_witness :
    revState.running = Running.Playing ∧
    revState.repeatMode = RepeatMode.Reverse ∧
    -1 ≤ rawAdvance revState (6/5) ∧ rawAdvance revState (6/5) ≤ 2 ∧
    (0 ≤ (onTick (6/5) revState).position ∧ (onTick (6/5) revState).position ≤ 1) :=
  ⟨rfl, rfl, by norm_num [rawAdvance, delta, revState, baseState],
    by norm_num [rawAdvance, delta, revState, baseState],
    (reverse_tick_bounces (6/5) revState rfl rfl
      (by norm_num [rawAdvance, delta, revState, baseState])
      (by norm_num [rawAdvance, delta, revState, baseState])).2.2.2⟩

/-- C4 counterexample: in `Reverse` mode, the run of four ticks of 3/5 from
position 0 moving forward performs exactly one full forward+backward cycle —
two bounces (the crossing counter ends at 2) with the direction flag back to
forward — yet `currentCount` ends at 2, not 1: the controller increments the
count at every bounce, not once per completed cycle. -/
theorem reverse_count_per_cycle_counterexample :
    (runCount [3/5, 3/5, 3/5, 3/5] revState).2 = 2 ∧
    (runCount [3/5, 3/5, 3/5, 3/5] revState).1.reverseDirection = false ∧
    (runCount [3/5, 3/5, 3/5, 3/5] revState).1.currentCount = 2 ∧
    ¬ (runCount [3/5, 3/5, 3/5, 3/5] revState).1.currentCount = 1 := by
  norm_num [runCount, onTick, advance, rawAdvance, delta, tickCrossed, revState, baseState]

theorem coordStep_inflight_le (c : Coord) (e : CoordEvent)
    (h : c.inflight.length ≤ 1) : (coordStep c e).inflight.length ≤ 1 := by
  cases e with
  | request p =>
      simp only [coordStep, requestRender]
      cases hc : c.inflight with
      | nil => simp
      | cons q t =>
          by_cases hpq : p = q
          · simpa [hpq, hc] using h
          · simpa [hpq, hc] using h
  | complete =>
      simp only [coordStep, completeRender]
      cases hp : c.pending with
      | none =>
          simp only []
          have := List.length_tail c.inflight
          simp only [List.length_tail] at *
          omega
      | some p =>
          simp only [List.length_cons, List.length_tail]
          omega

theorem runCoord_inflight_le (evs : List CoordEvent) (c : Coord)
    (h : c.inflight.length ≤ 1) : (runCoord evs c).inflight.length ≤ 1 := by
  induction evs generalizing c with
  | nil => exact h
  | cons e rest ih =>
      simp only [runCoord, List.foldl_cons]
      exact ih (coordStep c e) (coordStep_inflight_le c e h)

/-- C2 (amended): every coordinator state reachable from idle has at most one
render task outstanding; and when two render requests (as issued by two
seeks) arrive while a render is in flight at position `q`, the completion of
the in-flight task starts at most one subsequent render: none when both
requests were coalesced against `q`, otherwise exactly one targeting the
latest request that differs from `q` — which is the latest seek whenever that
seek's position differs from the in-flight one. -/
theorem async_single_render_coalesces (evs : List CoordEvent) (q p1 p2 : ℚ) :
    (runCoord evs coordInit).inflight.length ≤ 1 ∧
    (completeRender (requestRender p2 (requestRender p1 (oneInFlight q)))).2 =
      (if p2 = q then (if p1 = q then none else some p1) else some p2) := by
  refine ⟨runCoord_inflight_le evs coordInit (by simp [coordInit]), ?_⟩
  by_cases hp1 : p1 = q <;> by_cases hp2 : p2 = q <;>
    simp [requestRender, completeRender, oneInFlight, hp1, hp2]

/-- C2 counterexample: with a render in flight at position 0, seeking to 1/2
and then back to 0 — the in-flight position — coalesces the second request
away: after the in-flight render completes, the single subsequent render
targets 1/2, not the position of the latest seek (0). -/
theorem async_latest_seek_counterexample :
    (completeRender (requestRender 0 (requestRender (1/2) (oneInFlight 0)))).2 = some (1/2) ∧
    ¬ (completeRender (requestRender 0 (requestRender (1/2) (oneInFlight 0)))).2 = some 0 := by
  norm_num [requestRender, completeRender, oneInFlight]

/-- Witness for C6 at a concrete mid-run state (position 2/5, count 3) and
the tick list `[1, 1/2]`. -/
theorem pause_freezes_position_witness :
    runTicks [1, 1/2] (pause midState) = pause midState ∧
    (pause midState).position = midState.position ∧
    (pause midState).running = Running.Paused ∧
    play (runTicks [1, 1/2] (pause midState)) = { midState with running := Running.Playing } :=
  pause_freezes_position midState [1, 1/2] rfl

end LottieView
